import Mathlib

/-!
Verification of the Text2SQL repository core: the DDL schema extractor
(`src/schema_parser.py`), the schema relevance matchers
(`SchemaParser.search_schema` in `src/schema_parser.py` and
`RAGContextProvider._search_csv_schema` in `src/rag_context.py`), the CSV
schema loader (`src/csv_schema_loader.py`), and the context formatters
(`RAGContextProvider._format_relevant_schema` and
`RAGContextProvider._format_retrieved_documents` in `src/rag_context.py`).

The Python code drives its extraction with `re` regular expressions.  To keep
the embedding faithful, this file implements a small backtracking regular
expression interpreter with Python `re` semantics (leftmost-first alternation,
greedy and lazy repetition, numbered capturing groups, MULTILINE anchors,
`finditer` non-overlapping scanning) and transcribes the exact patterns of the
source.  Characters are treated at ASCII precision: the inputs appearing in
the claims are ASCII, and Python case folding and character classes agree
with the definitions below on ASCII text.
-/

/-- Python `\s` on ASCII text: space, tab, newline, carriage return,
form feed, vertical tab. -/
def isSpaceChar (c : Char) : Bool :=
  c = ' ' || c = '\t' || c = '\n' || c = '\x0d' || c = '\x0c' || c = '\x0b'

/-- Python `\w` on ASCII text: letters, digits and underscore. -/
def isWordChar (c : Char) : Bool :=
  ('a' ≤ c && c ≤ 'z') || ('A' ≤ c && c ≤ 'Z') || ('0' ≤ c && c ≤ '9') || c = '_'

/-- Python `\d` on ASCII text. -/
def isDigitChar (c : Char) : Bool :=
  '0' ≤ c && c ≤ '9'

/-- ASCII lower casing of one character, as Python `str.lower` acts on
ASCII letters.  Written as an explicit table so that facts about it reduce
by case analysis. -/
def pyLowerChar (c : Char) : Char :=
  match c with
  | 'A' => 'a' | 'B' => 'b' | 'C' => 'c' | 'D' => 'd' | 'E' => 'e' | 'F' => 'f'
  | 'G' => 'g' | 'H' => 'h' | 'I' => 'i' | 'J' => 'j' | 'K' => 'k' | 'L' => 'l'
  | 'M' => 'm' | 'N' => 'n' | 'O' => 'o' | 'P' => 'p' | 'Q' => 'q' | 'R' => 'r'
  | 'S' => 's' | 'T' => 't' | 'U' => 'u' | 'V' => 'v' | 'W' => 'w' | 'X' => 'x'
  | 'Y' => 'y' | 'Z' => 'z'
  | other => other

/-- Python `str.lower` on ASCII text. -/
def pyLower (s : String) : String :=
  String.mk (s.data.map pyLowerChar)

/-- Python `str.strip` (ASCII whitespace on both ends). -/
def pyStrip (s : String) : String :=
  String.mk (((s.data.dropWhile isSpaceChar).reverse.dropWhile isSpaceChar).reverse)

/-- Python `re.findall(r"\b\w+\b", s)`: the maximal runs of word
characters of `s`, in order.  The accumulator holds the current run,
reversed. -/
def wordsAux : List Char → List Char → List String
  | [], acc => if acc.isEmpty then [] else [String.mk acc.reverse]
  | c :: cs, acc =>
    if isWordChar c then wordsAux cs (c :: acc)
    else if acc.isEmpty then wordsAux cs []
    else String.mk acc.reverse :: wordsAux cs []

/-- All maximal word-character runs of a string (`re.findall(r"\b\w+\b", s)`). -/
def wordsOf (s : String) : List String := wordsAux s.data []

/-- Substring test, Python `needle in hay`. -/
def strContains (hay needle : String) : Bool :=
  (List.range (hay.data.length + 1)).any fun i =>
    needle.data.isPrefixOf (hay.data.drop i)

/-! ## Association lists with Python dict semantics

Python dicts preserve insertion order; assigning to an existing key replaces
the value in place, assigning to a fresh key appends. -/

/-- Python `d[k] = v`: replace in place if present, else append. -/
def alistInsert {α : Type} (l : List (String × α)) (k : String) (v : α) :
    List (String × α) :=
  match l with
  | [] => [(k, v)]
  | (k', v') :: rest =>
    if k' = k then (k, v) :: rest else (k', v') :: alistInsert rest k v

/-- Python `k in d`. -/
def alistHas {α : Type} (l : List (String × α)) (k : String) : Bool :=
  l.any fun p => p.1 = k

/-- Python `d[k]` as an `Option` (a `none` models a `KeyError`). -/
def alistLookup {α : Type} (l : List (String × α)) (k : String) : Option α :=
  (l.find? fun p => p.1 = k).map Prod.snd

/-! ## A backtracking regular expression interpreter with Python semantics

Constructors cover exactly the constructs used by the patterns in
`src/schema_parser.py`: character classes, ordered alternation, sequencing,
greedy and lazy repetition, numbered capturing groups, and the MULTILINE
anchors `^` and `$`. -/

/-- Regular expression abstract syntax. -/
inductive RE where
  /-- one character satisfying the class -/
  | cls (p : Char → Bool)
  /-- sequence -/
  | seq (rs : List RE)
  /-- ordered alternation, left preferred -/
  | alt (a b : RE)
  /-- zero or more, greedy when `lazy = false` -/
  | star (r : RE) (lazy : Bool)
  /-- one or more, greedy when `lazy = false` -/
  | plus (r : RE) (lazy : Bool)
  /-- zero or one, greedy when `lazy = false` -/
  | opt (r : RE) (lazy : Bool)
  /-- numbered capturing group -/
  | group (n : Nat) (r : RE)
  /-- `^` under MULTILINE: start of string or right after a newline -/
  | bol
  /-- `$` under MULTILINE: end of string or right before a newline -/
  | eol

/-- Work items of the defunctionalized matcher: a regex to match, a pending
star continuation (with the remaining input at loop entry, to stop on empty
progress), or a pending group close (with the remaining input at group
entry). -/
inductive RItem where
  | re (r : RE)
  | starK (r : RE) (lazy : Bool) (entry : List Char)
  | close (n : Nat) (entry : List Char)

/-- Matcher state: remaining input, whether the current position is at the
start of a line, and the captures recorded so far (most recent first). -/
structure MSt where
  rem : List Char
  atLineStart : Bool
  caps : List (Nat × List Char)

/-- Backtracking matcher.  Returns `none` when the fuel runs out,
`some none` when the item stack cannot match here, and `some (some st)` on
the first (leftmost-preference) success.  Alternation tries the left branch
first; greedy repetition tries to consume first; lazy repetition tries to
stop first — exactly the Python `re` backtracking order. -/
def mrun : Nat → List RItem → MSt → Option (Option MSt)
  | 0, _, _ => none
  | _ + 1, [], st => some (some st)
  | n + 1, it :: k, st =>
    match it with
    | .re r =>
      match r with
      | .cls p =>
        match st.rem with
        | [] => some none
        | c :: cs =>
          if p c then mrun n k { st with rem := cs, atLineStart := c = '\n' }
          else some none
      | .seq rs => mrun n (rs.map RItem.re ++ k) st
      | .alt a b =>
        match mrun n (.re a :: k) st with
        | none => none
        | some (some res) => some (some res)
        | some none => mrun n (.re b :: k) st
      | .star r lazy =>
        if lazy then
          match mrun n k st with
          | none => none
          | some (some res) => some (some res)
          | some none => mrun n (.re r :: .starK r lazy st.rem :: k) st
        else
          match mrun n (.re r :: .starK r lazy st.rem :: k) st with
          | none => none
          | some (some res) => some (some res)
          | some none => mrun n k st
      | .plus r lazy => mrun n (.re r :: .re (.star r lazy) :: k) st
      | .opt r lazy =>
        if lazy then
          match mrun n k st with
          | none => none
          | some (some res) => some (some res)
          | some none => mrun n (.re r :: k) st
        else
          match mrun n (.re r :: k) st with
          | none => none
          | some (some res) => some (some res)
          | some none => mrun n k st
      | .group i r => mrun n (.re r :: .close i st.rem :: k) st
      | .bol => if st.atLineStart then mrun n k st else some none
      | .eol =>
        match st.rem with
        | [] => mrun n k st
        | c :: _ => if c = '\n' then mrun n k st else some none
    | .starK r lazy entry =>
      if st.rem.length = entry.length then mrun n k st
      else
        if lazy then
          match mrun n k st with
          | none => none
          | some (some res) => some (some res)
          | some none => mrun n (.re r :: .starK r lazy st.rem :: k) st
        else
          match mrun n (.re r :: .starK r lazy st.rem :: k) st with
          | none => none
          | some (some res) => some (some res)
          | some none => mrun n k st
    | .close i entry =>
      let cap := entry.take (entry.length - st.rem.length)
      mrun n k { st with caps := (i, cap) :: st.caps }

/-- Captures of one match: group number paired with matched text. -/
def Caps : Type := List (Nat × List Char)

/-- Value of a numbered group after a match, Python `match.group(i)`
(the most recent capture wins; `none` when the group did not take part). -/
def getGroup (caps : Caps) (i : Nat) : Option String :=
  (caps.find? fun p => p.1 = i).map fun p => String.mk p.2

/-- Python `re.finditer` scanning loop: try a match at each position from
left to right; on success record the captures and continue after the match
(advancing one character on an empty match); on failure advance one
character.  `gas` bounds the number of scan steps, `fuel` each match
attempt; `none` reports fuel exhaustion, which does not occur on the inputs
used in this file. -/
def findAllGo (r : RE) (fuel : Nat) : Nat → List Char → Bool → Option (List Caps)
  | 0, _, _ => none
  | gas + 1, rem, atLS =>
    match mrun fuel [.re r] ⟨rem, atLS, []⟩ with
    | none => none
    | some (some st) =>
      if st.rem.length = rem.length then
        match rem with
        | [] => some [st.caps]
        | c :: cs => (findAllGo r fuel gas cs (c = '\n')).map (st.caps :: ·)
      else
        (findAllGo r fuel gas st.rem st.atLineStart).map (st.caps :: ·)
    | some none =>
      match rem with
      | [] => some []
      | c :: cs => findAllGo r fuel gas cs (c = '\n')

/-- All matches of `r` over `s`, Python `re.finditer(r, s)`. -/
def findAll (r : RE) (fuel : Nat) (s : List Char) : Option (List Caps) :=
  findAllGo r fuel (s.length + 1) s true

/-- Fuel used for every concrete pattern evaluation in this file. -/
def engineFuel : Nat := 100000

/-! ## The patterns of `src/schema_parser.py`, transcribed -/

/-- One character class literal (case carries no meaning for the
non-letter literals of the patterns). -/
def lit (c : Char) : RE := .cls (fun x => x = c)

/-- Case-insensitive literal character, for `re.IGNORECASE`. -/
def litCI (c : Char) : RE := .cls (fun x => pyLowerChar x = pyLowerChar c)

/-- Case-insensitive literal string. -/
def strCI (s : String) : RE := .seq (s.data.map litCI)

/-- The class `[\w\s\.]`. -/
def clsWSD : RE := .cls (fun c => isWordChar c || isSpaceChar c || c = '.')

/-- The class `\s`. -/
def clsS : RE := .cls isSpaceChar

/-- The class `\w`. -/
def clsW : RE := .cls isWordChar

/-- The class `\d`. -/
def clsD : RE := .cls isDigitChar

/-- The class `[\s\S]` (any character, newline included). -/
def clsAll : RE := .cls (fun _ => true)

/-- The class `.` (any character except newline). -/
def clsDot : RE := .cls (fun c => !(c = '\n'))

/-- Pattern `CREATE TABLE\s+(?:\[([\w\s\.]+)\]|([\w\s\.]+))\s*\(([\s\S]*?)\);`
from `SchemaParser._parse_ddl` (`src/schema_parser.py` line 30), compiled
with `re.IGNORECASE | re.MULTILINE`.  Group 1 is the bracketed table name,
group 2 the non-bracketed one, group 3 the body of the definition. -/
def table_pattern : RE :=
  .seq [strCI "CREATE TABLE", .plus clsS false,
    .alt (.seq [lit '[', .group 1 (.plus clsWSD false), lit ']'])
         (.group 2 (.plus clsWSD false)),
    .star clsS false, lit '(', .group 3 (.star clsAll true), lit ')', lit ';']

/-- Pattern `new_column_pattern` from `SchemaParser._parse_ddl`
(`src/schema_parser.py` lines 46-53), compiled with
`re.IGNORECASE | re.MULTILINE`:

`^\s*(?:\[(?P<name_b>[\w\s\.]+)\]|(?P<name>[\w\s\.]+))\s+`
`(?P<type>\w+(?:\(\s*\d+(?:\s*,\s*\d+)?\s*\))?(?:\s*(?:UNSIGNED|ZEROFILL))?`
`(?:\s*CHARACTER\s+SET\s+[\w]+)?(?:\s*COLLATE\s+[\w_]+)?)(?:.*?(?:,|\)|$))`

Group 1 is `name_b`, group 2 is `name`, group 3 is `type`. -/
def new_column_pattern : RE :=
  .seq [.bol, .star clsS false,
    .alt (.seq [lit '[', .group 1 (.plus clsWSD false), lit ']'])
         (.group 2 (.plus clsWSD false)),
    .plus clsS false,
    .group 3 (.seq [.plus clsW false,
      .opt (.seq [lit '(', .star clsS false, .plus clsD false,
        .opt (.seq [.star clsS false, lit ',', .star clsS false,
          .plus clsD false]) false,
        .star clsS false, lit ')']) false,
      .opt (.seq [.star clsS false, .alt (strCI "UNSIGNED") (strCI "ZEROFILL")])
        false,
      .opt (.seq [.star clsS false, strCI "CHARACTER", .plus clsS false,
        strCI "SET", .plus clsS false, .plus clsW false]) false,
      .opt (.seq [.star clsS false, strCI "COLLATE", .plus clsS false,
        .plus clsW false]) false]),
    .seq [.star clsDot true, .alt (lit ',') (.alt (lit ')') .eol)]]

/-! ## The DDL extractor (`SchemaParser._parse_ddl`, table and column part) -/

/-- A parsed column, the dict `{"name": ..., "type": ...}` built at
`src/schema_parser.py` line 62. -/
structure Column where
  name : String
  type : String
deriving DecidableEq, Repr

/-- Python `a or b` over two optional strings (an empty string is falsy). -/
def pyOrStr (a b : Option String) : String :=
  match a with
  | some s => if s.isEmpty then b.getD "" else s
  | none => b.getD ""

/-- Column extraction for one `CREATE TABLE` body
(`src/schema_parser.py` lines 55-62): iterate the matches of
`new_column_pattern`, take the bracketed name if present else the plain
name, and keep the pair when both name and type are non-empty, stripping
both. -/
def extractColumns (columnsText : String) : Option (List Column) :=
  (findAll new_column_pattern engineFuel columnsText.data).map fun ms =>
    ms.foldl
      (fun cols caps =>
        let column_name := pyOrStr (getGroup caps 1) (getGroup caps 2)
        let column_type := (getGroup caps 3).getD ""
        if !column_name.isEmpty && !column_type.isEmpty then
          cols ++ [⟨pyStrip column_name, pyStrip column_type⟩]
        else cols)
      []

/-- Table and column extraction of `SchemaParser._parse_ddl`
(`src/schema_parser.py` lines 28-64): find every `CREATE TABLE` match,
take group 1 or group 2 as the table name (no strip is applied to it in the
source), extract the columns of group 3, and store them under the table
name with dict assignment.  The result is `self.tables` as an ordered
association list.  Returns `none` only on fuel exhaustion of the regex
interpreter, which does not occur on the inputs used here. -/
def parseTables (ddlContent : String) : Option (List (String × List Column)) := do
  let ms ← findAll table_pattern engineFuel ddlContent.data
  ms.foldlM
    (fun tbls caps => do
      let table_name := pyOrStr (getGroup caps 1) (getGroup caps 2)
      let columns_text := (getGroup caps 3).getD ""
      let cols ← extractColumns columns_text
      pure (alistInsert tbls table_name cols))
    []

/-- File-level behavior of `SchemaParser._parse_ddl`
(`src/schema_parser.py` lines 15-21): a missing DDL file raises
`FileNotFoundError` naming the path; otherwise the content is parsed.  The
file system is modelled by the flag `fileExists` and the text `content`. -/
def parse_ddl (fileExists : Bool) (ddl_file_path content : String) :
    Except String (Option (List (String × List Column))) :=
  if !fileExists then
    .error ("DDL file not found: " ++ ddl_file_path)
  else
    .ok (parseTables content)

/-! ## The schema relevance matcher (`SchemaParser.search_schema`) -/

/-- A foreign-key relationship, the dict built at
`src/schema_parser.py` lines 79-84 and 104-109. -/
structure Relationship where
  source_table : String
  source_column : String
  target_table : String
  target_column : String
deriving DecidableEq, Repr

/-- The in-memory model of a `SchemaParser` instance: `self.tables`
(ordered table-name map, each value its column list) and
`self.relationships`. -/
structure Model where
  tables : List (String × List Column)
  relationships : List Relationship
deriving DecidableEq, Repr

/-- The value returned by `search_schema`
(`src/schema_parser.py` lines 211-214). -/
structure SearchResult where
  tables : List (String × List Column)
  relationships : List Relationship
deriving DecidableEq, Repr

/-- Direct matching phase of `search_schema`
(`src/schema_parser.py` lines 158-171): a table whose lowercased name is a
query term is kept with all its columns; otherwise the columns whose
lowercased name is a query term are kept, when there are any. -/
def directPhase (tables : List (String × List Column)) (query_terms : List String) :
    List (String × List Column) :=
  tables.foldl
    (fun relevant_tables p =>
      let (table_name, columns) := p
      if pyLower table_name ∈ query_terms then
        alistInsert relevant_tables table_name columns
      else
        let relevant_columns_list :=
          columns.filter fun column => pyLower column.name ∈ query_terms
        if !relevant_columns_list.isEmpty then
          alistInsert relevant_tables table_name relevant_columns_list
        else relevant_tables)
    []

/-- The fixed semantic alias table of `search_schema`
(`src/schema_parser.py` lines 176-183). -/
def semantic_matches : List (String × List String) :=
  [("employee", ["employees", "staff", "personnel"]),
   ("department", ["departments", "divisions", "teams"]),
   ("salary", ["compensation", "pay", "wage"]),
   ("sale", ["sales", "revenue", "transaction"]),
   ("product", ["products", "items", "goods"]),
   ("customer", ["customers", "clients", "buyers"])]

/-- Semantic alias phase of `search_schema`
(`src/schema_parser.py` lines 185-190), reached only when the direct phase
found nothing: for every query term that is a semantic key or one of its
values, every table whose lowercased name contains that key is added with
all its columns. -/
def semanticPhase (tables : List (String × List Column)) (query_terms : List String) :
    List (String × List Column) :=
  query_terms.foldl
    (fun acc term =>
      semantic_matches.foldl
        (fun acc kv =>
          let (key, values) := kv
          if term ∈ values || key = term then
            tables.foldl
              (fun acc p =>
                if strContains (pyLower p.1) key then alistInsert acc p.1 p.2
                else acc)
              acc
          else acc)
        acc)
    []

/-- The matched table set entering the relationship loop of
`search_schema`: the direct phase, or the semantic phase when the direct
phase is empty (`src/schema_parser.py` lines 158-190). -/
def matchedPhase (m : Model) (query_terms : List String) :
    List (String × List Column) :=
  let d := directPhase m.tables query_terms
  if d.isEmpty then semanticPhase m.tables query_terms else d

/-- Endpoint pull of the relationship loop (`src/schema_parser.py`
lines 198-201): when the endpoint is not yet a key of the relevant map,
index `self.tables` for its full column list — a missing key is a
`KeyError`, modelled as `Except.error`. -/
def pullIn (allTables relevant_tables : List (String × List Column))
    (name : String) : Except String (List (String × List Column)) :=
  if alistHas relevant_tables name then .ok relevant_tables
  else
    match alistLookup allTables name with
    | some cols => .ok (alistInsert relevant_tables name cols)
    | none => .error ("KeyError: " ++ name)

/-- Relationship expansion loop of `search_schema`
(`src/schema_parser.py` lines 193-201): for each relationship whose source
or target table is a key of the current relevant map, append the
relationship and pull in each missing endpoint with all its columns from
`self.tables`. -/
def relExpandGo (allTables : List (String × List Column)) :
    List Relationship → List (String × List Column) × List Relationship →
    Except String (List (String × List Column) × List Relationship)
  | [], st => .ok st
  | rel :: rest, (relevant_tables, relevant_relationships) =>
    if alistHas relevant_tables rel.source_table ||
        alistHas relevant_tables rel.target_table then
      match pullIn allTables relevant_tables rel.source_table with
      | .error e => .error e
      | .ok relevant_tables =>
        match pullIn allTables relevant_tables rel.target_table with
        | .error e => .error e
        | .ok relevant_tables =>
          relExpandGo allTables rest
            (relevant_tables, relevant_relationships ++ [rel])
    else relExpandGo allTables rest (relevant_tables, relevant_relationships)

/-- Body of `search_schema` after query tokenization
(`src/schema_parser.py` lines 154-214). -/
def searchSchemaWithTerms (m : Model) (query_terms : List String) :
    Except String SearchResult :=
  match relExpandGo m.tables m.relationships (matchedPhase m query_terms, []) with
  | .error e => .error e
  | .ok (relevant_tables, relevant_relationships) =>
    let relevant_tables :=
      if relevant_tables.isEmpty && !m.tables.isEmpty then
        m.tables.take 3
      else relevant_tables
    .ok ⟨relevant_tables, relevant_relationships⟩

/-- `SchemaParser.search_schema` (`src/schema_parser.py` lines 150-214):
tokenize `query.lower()` into word terms and run the matching phases.  An
`Except.error` models the `KeyError` that dict indexing can raise. -/
def search_schema (m : Model) (query : String) : Except String SearchResult :=
  searchSchemaWithTerms m (wordsOf (pyLower query))

/-! ## The CSV schema loader (`src/csv_schema_loader.py`) -/

/-- Dataclass `TableInfo` (`src/csv_schema_loader.py` lines 8-13).  The
loader fills every field with a stripped CSV cell, so the optional fields
hold strings. -/
structure TableInfo where
  source_database : String
  name : String
  category : String
  description : String
deriving DecidableEq, Repr

/-- Dataclass `ColumnInfo` (`src/csv_schema_loader.py` lines 15-24). -/
structure ColumnInfo where
  database_name : String
  table_name : String
  column_name : String
  data_type : String
  description : String
  valid_values : String
  connect_portal_only : String
  corresponding_map_table : String
deriving DecidableEq, Repr

/-- Dataclass `JoinInfo` (`src/csv_schema_loader.py` lines 26-36). -/
structure JoinInfo where
  source_database : String
  primary_table_schema : String
  primary_table_name : String
  primary_table_column : String
  relationship_type : String
  foreign_table_schema : String
  foreign_table_name : String
  foreign_table_column : String
  join_description : String
deriving DecidableEq, Repr

/-- The in-memory state of a `CSVSchemaLoader`: `self.tables` is a dict
keyed by table name, kept here as the ordered list of its values
(`get_tables` returns `list(self.tables.values())`); `self.columns` and
`self.joins` are plain lists. -/
structure LoaderState where
  tables : List TableInfo
  columns : List ColumnInfo
  joins : List JoinInfo
deriving DecidableEq, Repr

/-- One CSV row as produced by `csv.DictReader`: header name to cell. -/
def Row : Type := List (String × String)

/-- Python `rec.get(key, '')` over a CSV row. -/
def rowGet (rec : Row) (key : String) : String :=
  (alistLookup rec key).getD ""

/-- `CSVSchemaLoader._read_csv` (`src/csv_schema_loader.py` lines 50-53):
a missing file raises `FileNotFoundError` naming the path.  The file system
is modelled by the map `files` from file name to content rows. -/
def read_csv (base_path : String) (files : String → Option (List Row))
    (file_name : String) : Except String (List Row) :=
  match files file_name with
  | none => .error ("Error: CSV file not found at " ++ base_path ++ file_name)
  | some records => .ok records

/-- `CSVSchemaLoader._load_tables` (`src/csv_schema_loader.py` lines 66-76),
given the rows: build `TableInfo` records from stripped cells and store the
ones with a non-empty name in the dict keyed by name. -/
def load_tables (records : List Row) : List (String × TableInfo) :=
  records.foldl
    (fun tables rec =>
      let table : TableInfo :=
        ⟨pyStrip (rowGet rec "Source_database"),
         pyStrip (rowGet rec "table_name"),
         pyStrip (rowGet rec "Table_category"),
         pyStrip (rowGet rec "Description")⟩
      if !table.name.isEmpty then alistInsert tables table.name table else tables)
    []

/-- `CSVSchemaLoader._load_columns` (`src/csv_schema_loader.py` lines 78-93). -/
def load_columns (records : List Row) : List ColumnInfo :=
  records.foldl
    (fun columns rec =>
      let column : ColumnInfo :=
        ⟨pyStrip (rowGet rec "Database_name"),
         pyStrip (rowGet rec "Table_name"),
         pyStrip (rowGet rec "column_name"),
         pyStrip (rowGet rec "SQL_FORMAT"),
         pyStrip (rowGet rec "Description (a very descriptive one)"),
         pyStrip (rowGet rec "Valid_values"),
         pyStrip (rowGet rec "Connect_portal_only"),
         pyStrip (rowGet rec "corresponding_map_table")⟩
      if !column.table_name.isEmpty && !column.column_name.isEmpty &&
          !column.data_type.isEmpty then
        columns ++ [column]
      else columns)
    []

/-- `CSVSchemaLoader._load_joins` (`src/csv_schema_loader.py` lines 95-112). -/
def load_joins (records : List Row) : List JoinInfo :=
  records.foldl
    (fun joins rec =>
      let join : JoinInfo :=
        ⟨pyStrip (rowGet rec "Source_Database"),
         pyStrip (rowGet rec "Primary_Table_Schema"),
         pyStrip (rowGet rec "Primary_Table_Name"),
         pyStrip (rowGet rec "Primary_Table_Column"),
         pyStrip (rowGet rec "Relationship_Type"),
         pyStrip (rowGet rec "Foreign_Table_Schema"),
         pyStrip (rowGet rec "Foreign_Table_Name"),
         pyStrip (rowGet rec "Foreign_Table_Column"),
         pyStrip (rowGet rec "Join_Description")⟩
      if !join.primary_table_name.isEmpty && !join.primary_table_column.isEmpty &&
          !join.foreign_table_name.isEmpty && !join.foreign_table_column.isEmpty then
        joins ++ [join]
      else joins)
    []

/-- `CSVSchemaLoader.__init__` (`src/csv_schema_loader.py` lines 40-48):
read the three required CSV files in order, each raising when missing, and
build the loader state. -/
def loadCSVSchema (base_path : String) (files : String → Option (List Row)) :
    Except String LoaderState := do
  let trecs ← read_csv base_path files "table_related_information.csv"
  let crecs ← read_csv base_path files "column_related_information.csv"
  let jrecs ← read_csv base_path files "join_related_information.csv"
  .ok ⟨(load_tables trecs).map Prod.snd, load_columns crecs, load_joins jrecs⟩

/-- `CSVSchemaLoader.get_columns_for_table`
(`src/csv_schema_loader.py` line 122). -/
def getColumnsForTable (L : LoaderState) (table_name : String) : List ColumnInfo :=
  L.columns.filter fun col => col.table_name = table_name

/-- `CSVSchemaLoader.get_table_by_name`
(`src/csv_schema_loader.py` line 119). -/
def getTableByName (L : LoaderState) (name : String) : Option TableInfo :=
  L.tables.find? fun t => t.name = name

/-! ## The CSV-backed matcher (`RAGContextProvider._search_csv_schema`) -/

/-- The column dict appended at `src/rag_context.py` lines 173-177. -/
structure CsvCol where
  name : String
  type : String
  description : String
deriving DecidableEq, Repr

/-- The relationship dict appended at `src/rag_context.py` lines 184-190. -/
structure CsvRel where
  source_table : String
  source_column : String
  target_table : String
  target_column : String
  description : String
deriving DecidableEq, Repr

/-- The value returned by `_search_csv_schema`
(`src/rag_context.py` lines 192-195). -/
structure CsvSearchResult where
  tables : List (String × List CsvCol)
  relationships : List CsvRel
deriving DecidableEq, Repr

/-- The guarded dict-and-set insertion of `_search_csv_schema`
(`src/rag_context.py` lines 154-157 and 165-167): when the table is not a
key of the relevant map yet, bind it to an empty column list and add its
name to the identified set. -/
def csvEnsureTable (table_info : TableInfo)
    (st : List (String × List CsvCol) × List String) :
    List (String × List CsvCol) × List String :=
  if !alistHas st.1 table_info.name then
    (st.1 ++ [(table_info.name, [])], st.2 ++ [table_info.name])
  else st

/-- The column append of `_search_csv_schema` for one matching column
(`src/rag_context.py` lines 165-177): ensure the table entry exists, then
append the column dict unless a column of the same name is already in the
entry. -/
def csvAppendCol (table_info : TableInfo) (col_info : ColumnInfo)
    (st : List (String × List CsvCol) × List String) :
    List (String × List CsvCol) × List String :=
  let st := csvEnsureTable table_info st
  let entry := (alistLookup st.1 table_info.name).getD []
  if !(entry.any fun c => c.name = col_info.column_name) then
    (alistInsert st.1 table_info.name
      (entry ++ [⟨col_info.column_name, col_info.data_type,
        col_info.description⟩]), st.2)
  else st

/-- Per-table loop body of `_search_csv_schema`
(`src/rag_context.py` lines 149-177), threading the relevant-tables dict
and the identified-names set. -/
def csvTableStep (L : LoaderState) (query_terms : List String)
    (st : List (String × List CsvCol) × List String) (table_info : TableInfo) :
    List (String × List CsvCol) × List String :=
  let st :=
    if pyLower table_info.name ∈ query_terms then csvEnsureTable table_info st
    else st
  (getColumnsForTable L table_info.name).foldl
    (fun st col_info =>
      if pyLower col_info.column_name ∈ query_terms ||
          pyLower table_info.name ∈ query_terms then
        csvAppendCol table_info col_info st
      else st)
    st

/-- Body of `_search_csv_schema` after query tokenization
(`src/rag_context.py` lines 145-195): scan all tables, then keep exactly
the joins with both endpoints among the identified names.  No table is
ever pulled in by a relationship, and there is no fallback subset. -/
def searchCsvSchemaWithTerms (L : LoaderState) (query_terms : List String) :
    CsvSearchResult :=
  let (relevant, names) := L.tables.foldl (csvTableStep L query_terms) ([], [])
  let relevant_relationships :=
    (L.joins.filter fun j =>
      j.primary_table_name ∈ names && j.foreign_table_name ∈ names).map
      fun j =>
        ⟨j.primary_table_name, j.primary_table_column,
         j.foreign_table_name, j.foreign_table_column, j.join_description⟩
  ⟨relevant, relevant_relationships⟩

/-- `RAGContextProvider._search_csv_schema`
(`src/rag_context.py` lines 141-195): the query terms are the lowercased
word tokens of the query. -/
def search_csv_schema (L : LoaderState) (query : String) : CsvSearchResult :=
  searchCsvSchemaWithTerms L ((wordsOf query).map pyLower)

/-! ## The context formatters (`src/rag_context.py`) -/

/-- `RAGContextProvider._format_relevant_schema`
(`src/rag_context.py` lines 197-237), over the result of
`_search_csv_schema` and the loader used for table descriptions.  The
input dict always carries both keys there, so the two `dict.get` calls
with defaults reduce to field access. -/
def format_relevant_schema (L : LoaderState) (relevant_schema_data : CsvSearchResult) :
    String :=
  let formatted := "Relevant Database Schema:\n"
  let tables_data := relevant_schema_data.tables
  let formatted :=
    if tables_data.isEmpty then
      formatted ++ "-- No relevant tables found for the query.\n"
    else formatted
  let formatted :=
    tables_data.foldl
      (fun formatted p =>
        let (table_name, columns) := p
        let formatted := formatted ++ "\nTable: " ++ table_name ++ "\n"
        let formatted :=
          match getTableByName L table_name with
          | some table_info =>
            if !table_info.description.isEmpty then
              formatted ++ "  Description: " ++ table_info.description ++ "\n"
            else formatted
          | none => formatted
        if !columns.isEmpty then
          columns.foldl
            (fun formatted col_data =>
              let col_desc_str :=
                "    - " ++ col_data.name ++ " (" ++ col_data.type ++ ")"
              let col_desc_str :=
                if !col_data.description.isEmpty then
                  col_desc_str ++ " # " ++ col_data.description
                else col_desc_str
              formatted ++ col_desc_str ++ "\n")
            (formatted ++ "  Columns:\n")
        else formatted ++ "  No columns found or selected for this table.\n")
      formatted
  let relationships_data := relevant_schema_data.relationships
  if !relationships_data.isEmpty then
    relationships_data.foldl
      (fun formatted rel =>
        let line :=
          "  - " ++ rel.source_table ++ "." ++ rel.source_column ++ " -> " ++
            rel.target_table ++ "." ++ rel.target_column
        let line :=
          if !rel.description.isEmpty then line ++ " # " ++ rel.description
          else line
        formatted ++ line ++ "\n")
      (formatted ++ "\nRelationships:\n")
  else
    if !tables_data.isEmpty then
      formatted ++ "\n-- No relevant relationships found for the selected tables.\n"
    else formatted

/-- A metadata value of a retrieved document: either not a dict (which
also covers a missing or `None` metadata entry, reset to an empty dict at
`src/rag_context.py` line 261) or a dict of string entries. -/
inductive MetaV where
  | notDict
  | dict (pairs : List (String × String))
deriving DecidableEq, Repr

/-- A retrieved document as `_format_retrieved_documents` inspects it: a
non-dict item (skipped at `src/rag_context.py` lines 247-249) or a dict
with an optional string `content` entry and a metadata entry. -/
inductive DocItem where
  | notDict
  | dict (content : Option String) (metadata : MetaV)
deriving DecidableEq, Repr

/-- Python `metadata.get(key, default)` for the modelled metadata dict. -/
def metaGet (m : MetaV) (key default : String) : String :=
  match m with
  | .notDict => default
  | .dict pairs => (alistLookup pairs key).getD default

/-- Rendering of one retrieved document
(`src/rag_context.py` lines 245-280): `none` when the document is dropped
(not a dict, or stripped content empty), otherwise the formatted block. -/
def renderDoc (doc_item : DocItem) : Option String :=
  match doc_item with
  | .notDict => none
  | .dict rawContent metadata =>
    let content := pyStrip (rawContent.getD "")
    let meta_type := metaGet metadata "type" "unknown"
    if content.isEmpty then none
    else if meta_type = "table" then
      some ("-- Retrieved Table Description for " ++
        metaGet metadata "table_name" "Unknown Table" ++ ":\n" ++ content)
    else if meta_type = "column" then
      some ("-- Retrieved Column Description for " ++
        metaGet metadata "table_name" "Unknown Table" ++ "." ++
        metaGet metadata "column_name" "Unknown Column" ++ ":\n" ++ content)
    else if meta_type = "example_query" then
      some ("-- Retrieved Example SQL Query:\n" ++ content)
    else
      some ("-- Retrieved Context (type: " ++ meta_type ++ "):\n" ++ content)

/-- The formatted parts accumulated by the loop of
`_format_retrieved_documents`, in order. -/
def docParts : List DocItem → List String
  | [] => []
  | d :: ds =>
    match renderDoc d with
    | none => docParts ds
    | some p => p :: docParts ds

/-- Python `sep.join(parts)`. -/
def joinSep (sep : String) : List String → String
  | [] => ""
  | [x] => x
  | x :: xs => x ++ sep ++ joinSep sep xs

/-- `RAGContextProvider._format_retrieved_documents`
(`src/rag_context.py` lines 240-287): an empty input list returns the fixed
marker; documents are rendered or dropped; if every document was dropped a
second fixed marker is returned; otherwise the parts are joined with blank
lines. -/
def format_retrieved_documents (retrieved_docs : List DocItem) : String :=
  if retrieved_docs.isEmpty then
    "-- No specific statements/examples retrieved."
  else
    let formatted_parts := docParts retrieved_docs
    if formatted_parts.isEmpty then
      "-- No relevant statements/examples retrieved with usable content or structure."
    else joinSep "\n\n" formatted_parts

/-! ## Helper lemmas -/

/-- Membership after a Python dict assignment. -/
theorem alistInsert_mem {α : Type} (l : List (String × α)) (k : String) (v : α) :
    ∀ p ∈ alistInsert l k v, p ∈ l ∨ p = (k, v) := by
  induction l with
  | nil => intro p hp; simp [alistInsert] at hp; exact Or.inr hp
  | cons hd tl ih =>
    intro p hp
    rw [alistInsert] at hp
    by_cases hk : hd.1 = k
    · simp [hk] at hp
      rcases hp with h | h
      · exact Or.inr (by simp [h])
      · exact Or.inl (List.mem_cons_of_mem _ h)
    · simp [hk] at hp
      rcases hp with h | h
      · exact Or.inl (by simp [h])
      · rcases ih p h with h' | h'
        · exact Or.inl (List.mem_cons_of_mem _ h')
        · exact Or.inr h'

/-- Dict assignment makes the key present. -/
theorem alistHas_insert_self {α : Type} (l : List (String × α)) (k : String) (v : α) :
    alistHas (alistInsert l k v) k = true := by
  induction l with
  | nil => simp [alistInsert, alistHas]
  | cons hd tl ih =>
    rw [alistInsert]
    by_cases hk : hd.1 = k
    · simp [hk, alistHas]
    · simp only [if_neg hk, alistHas, List.any_cons]
      simp [alistHas] at ih
      simp [ih]

/-- Unfolding of key membership at a cons cell. -/
theorem alistHas_cons {α : Type} (p : String × α) (l : List (String × α)) (k : String) :
    alistHas (p :: l) k = (decide (p.1 = k) || alistHas l k) := rfl

/-- Dict assignment keeps present keys present. -/
theorem alistHas_insert_of {α : Type} {l : List (String × α)} {k' : String}
    (k : String) (v : α) (h : alistHas l k' = true) :
    alistHas (alistInsert l k v) k' = true := by
  induction l with
  | nil => simp [alistHas] at h
  | cons hd tl ih =>
    rw [alistInsert]
    rw [alistHas_cons, Bool.or_eq_true, decide_eq_true_eq] at h
    by_cases hk : hd.1 = k
    · rw [if_pos hk, alistHas_cons, Bool.or_eq_true, decide_eq_true_eq]
      rcases h with h | h
      · exact Or.inl (by rw [← hk]; exact h)
      · exact Or.inr h
    · rw [if_neg hk, alistHas_cons, Bool.or_eq_true, decide_eq_true_eq]
      rcases h with h | h
      · exact Or.inl h
      · exact Or.inr (ih h)

/-- A key is present exactly when lookup succeeds. -/
theorem alistLookup_isSome {α : Type} (l : List (String × α)) (k : String) :
    (alistLookup l k).isSome = alistHas l k := by
  induction l with
  | nil => simp [alistLookup, alistHas]
  | cons hd tl ih =>
    by_cases hk : hd.1 = k
    · simp [alistLookup, alistHas, List.find?, hk]
    · simp only [alistLookup, alistHas, List.find?, List.any_cons] at ih ⊢
      simp [hk, decide_eq_true_eq]
      simpa [alistLookup, alistHas] using ih

/-- A successful lookup returns a stored pair. -/
theorem alistLookup_mem {α : Type} {l : List (String × α)} {k : String} {v : α}
    (h : alistLookup l k = some v) : (k, v) ∈ l := by
  induction l with
  | nil => simp [alistLookup] at h
  | cons hd tl ih =>
    obtain ⟨a, b⟩ := hd
    by_cases hk : a = k
    · simp [alistLookup, List.find?, hk] at h
      subst hk
      subst h
      exact List.mem_cons_self _ _
    · simp only [alistLookup, List.find?] at h
      rw [show (decide ((a, b).1 = k)) = false by simp [hk]] at h
      exact List.mem_cons_of_mem _ (ih h)

/-- A string with positive length is not empty. -/
theorem ne_empty_of_len_pos {s : String} (h : 0 < s.length) : s ≠ "" := by
  intro he
  subst he
  simp at h

/-- Appending to a non-empty string on the left stays non-empty. -/
theorem append_ne_empty_left (a b : String) (h : 0 < a.length) : a ++ b ≠ "" :=
  ne_empty_of_len_pos (by rw [String.length_append]; omega)

/-- ASCII lower casing preserves the word-character class. -/
theorem isWordChar_pyLowerChar (c : Char) :
    isWordChar (pyLowerChar c) = isWordChar c := by
  unfold pyLowerChar
  split <;> rfl

/-- The tokenizer commutes with ASCII lower casing, accumulator form. -/
theorem wordsAux_map_lower : ∀ cs acc : List Char,
    wordsAux (cs.map pyLowerChar) (acc.map pyLowerChar) =
      (wordsAux cs acc).map pyLower := by
  intro cs
  induction cs with
  | nil =>
    intro acc
    cases acc with
    | nil => rfl
    | cons a as =>
      simp [wordsAux, pyLower]
  | cons c cs ih =>
    intro acc
    simp only [List.map_cons, wordsAux, isWordChar_pyLowerChar]
    by_cases hw : isWordChar c
    · simp only [hw, if_true]
      have := ih (c :: acc)
      simpa using this
    · simp only [hw, if_false, Bool.false_eq_true]
      cases acc with
      | nil => simpa using ih []
      | cons a as =>
        simp only [List.map_cons, List.isEmpty_cons, if_false]
        have := ih []
        simp at this
        simp [this, pyLower]

/-- The tokenizer commutes with ASCII lower casing. -/
theorem wordsOf_lower (s : String) : wordsOf (pyLower s) = (wordsOf s).map pyLower := by
  have h := wordsAux_map_lower s.data []
  simpa [wordsOf, pyLower] using h

/-- Success test for the exception model. -/
def isOkE {α : Type} : Except String α → Bool
  | .ok _ => true
  | .error _ => false

/-! ## Concrete fixtures -/

/-- The DDL text of specification Scenario 1. -/
def scenario1DDL : String :=
  "CREATE TABLE Users (user_id INT PRIMARY KEY, username VARCHAR(50));"

/-- A CREATE TABLE body with a standalone PRIMARY KEY constraint line. -/
def primaryKeyDDL : String :=
  "CREATE TABLE T (\n  id INT,\n  PRIMARY KEY (id)\n);"

/-- A CREATE TABLE body with the CONSTRAINT line named by the claim. -/
def constraintDDL : String :=
  "CREATE TABLE T (\n  a INT,\n  CONSTRAINT fk_x FOREIGN KEY (a) REFERENCES B(c)\n);"

/-- A CREATE TABLE body exercising the MAX and numeric type qualifiers. -/
def qualifierDDL : String :=
  "CREATE TABLE T (\n  descr NVARCHAR(MAX),\n  price DECIMAL(10,2)\n);"

/-- The SQL keywords enumerated by the claim about the keyword guard. -/
def sqlKeywords : List String :=
  ["PRIMARY", "KEY", "NOT", "NULL", "DEFAULT", "CHECK", "UNIQUE", "FOREIGN",
   "REFERENCES", "CONSTRAINT"]

/-- Tables A, B, C (each two columns) for the one-hop closure scenario. -/
def tablesABC : List (String × List Column) :=
  [("A", [⟨"id", "INT"⟩, ⟨"x", "TEXT"⟩]),
   ("B", [⟨"id", "INT"⟩, ⟨"a_id", "INT"⟩]),
   ("C", [⟨"id", "INT"⟩, ⟨"b_id", "INT"⟩])]

/-- Relationships A.id -> B.a_id and B.id -> C.b_id. -/
def relsABC : List Relationship :=
  [⟨"A", "id", "B", "a_id"⟩, ⟨"B", "id", "C", "b_id"⟩]

/-- The A, B, C model of the one-hop closure scenario. -/
def mABC : Model := ⟨tablesABC, relsABC⟩

/-- A model with a single table B and a relationship whose source table A
is dangling (absent from the table map). -/
def mDangling : Model :=
  ⟨[("B", [⟨"id", "INT"⟩])], [⟨"A", "id", "B", "a_id"⟩]⟩

/-- A model with a single table named Users, for the case-insensitivity
scenario. -/
def mUsers : Model :=
  ⟨[("Users", [⟨"user_id", "INT"⟩, ⟨"username", "VARCHAR(50)"⟩])], []⟩

/-- The loader state of the A, B, C scenario for the CSV-backed matcher. -/
def csvABC : LoaderState :=
  ⟨[⟨"db", "A", "", ""⟩, ⟨"db", "B", "", ""⟩, ⟨"db", "C", "", ""⟩],
   [⟨"db", "A", "id", "INT", "", "", "", ""⟩,
    ⟨"db", "A", "x", "TEXT", "", "", "", ""⟩,
    ⟨"db", "B", "id", "INT", "", "", "", ""⟩,
    ⟨"db", "B", "a_id", "INT", "", "", "", ""⟩,
    ⟨"db", "C", "id", "INT", "", "", "", ""⟩,
    ⟨"db", "C", "b_id", "INT", "", "", "", ""⟩],
   [⟨"db", "", "A", "id", "", "", "B", "a_id", ""⟩,
    ⟨"db", "", "B", "id", "", "", "C", "b_id", ""⟩]⟩

/-! ## C1: Scenario 1 extraction -/

/-- Claim C1: for the DDL `CREATE TABLE Users (user_id INT PRIMARY KEY,
username VARCHAR(50));` the claim asserts one table `Users` with exactly
the columns `user_id:INT` and `username:VARCHAR(50)`.  The code does not
do this: because the non-bracketed name classes `[\w\s\.]+` of
`table_pattern` and `new_column_pattern` also match spaces, the extractor
yields one table whose stored name is `Users ` (with a trailing space) and
whose column list is the single mangled column named
`user_id INT PRIMARY` of type `KEY`.  This theorem evaluates the embedded
extractor at the failing input, exhibiting the divergence. -/
theorem c1_scenario1_extraction_mangled :
    parseTables scenario1DDL =
      some [("Users ", [⟨"user_id INT PRIMARY", "KEY"⟩])] := by
  decide

/-! ## C2: the keyword guard does not exist -/

/-- Claim C2 counterexample: the claim asserts that a constraint line never
produces a Column named by a SQL keyword because such matches are rejected.
No such rejection exists in `new_column_pattern` or its use: for the DDL
`CREATE TABLE T (id INT, PRIMARY KEY (id));` (one definition per line) the
extractor produces a spurious Column named `PRIMARY` — one of the keywords
enumerated by the claim — with type `KEY`. -/
theorem c2_keyword_column_is_produced :
    alistLookup ((parseTables primaryKeyDDL).getD []) "T " =
        some [⟨"id", "INT"⟩, ⟨"PRIMARY", "KEY"⟩] ∧
      "PRIMARY" ∈ sqlKeywords := by
  constructor
  · decide
  · decide

/-- Claim C2 amended: the column extractor applies no keyword rejection.
A constraint line inside a CREATE TABLE body does produce a spurious
Column: for the line `CONSTRAINT fk_x FOREIGN KEY (a) REFERENCES B(c)`
named by the claim, the captured column name is `CONSTRAINT fk_x FOREIGN`
(the greedy name class swallows the keywords up to `KEY`) with type `KEY`,
and a standalone `PRIMARY KEY (id)` line produces a Column named by the
bare keyword `PRIMARY`. -/
theorem c2_no_keyword_guard :
    parseTables constraintDDL =
      some [("T ", [⟨"a", "INT"⟩, ⟨"CONSTRAINT fk_x FOREIGN", "KEY"⟩])] := by
  decide

/-! ## C9: type qualifiers -/

/-- Claim C9 counterexample: the claim asserts that a column line whose
type carries a parenthesized precision/scale or a MAX qualifier matches
with the qualifier included in the captured type.  The numeric branch of
`new_column_pattern` requires digits inside the parentheses, so
`descr NVARCHAR(MAX)` matches with captured type `NVARCHAR` only — the
`(MAX)` qualifier is not part of the captured type. -/
theorem c9_max_qualifier_dropped :
    alistLookup ((parseTables qualifierDDL).getD []) "T " =
        some [⟨"descr", "NVARCHAR"⟩, ⟨"price", "DECIMAL(10,2)"⟩] ∧
      strContains "NVARCHAR" "(MAX)" = false := by
  constructor
  · decide
  · decide

/-- Claim C9 amended: a numeric parenthesized precision/scale is captured
as part of the data type (`price DECIMAL(10,2)` yields type
`DECIMAL(10,2)`), while a MAX qualifier is not: `descr NVARCHAR(MAX)`
still matches as a column line but its captured type is the bare
`NVARCHAR`. -/
theorem c9_numeric_qualifier_kept :
    parseTables qualifierDDL =
      some [("T ", [⟨"descr", "NVARCHAR"⟩, ⟨"price", "DECIMAL(10,2)"⟩])] := by
  decide

/-! ## C10: missing sources and empty DDL -/

/-- Claim C10: extraction fails with an exception reporting the missing
source when the schema source file does not exist — for the DDL path
(`SchemaParser._parse_ddl` raises `FileNotFoundError` naming the path) and
for each of the three required CSV files (`CSVSchemaLoader._read_csv`
raises `FileNotFoundError` naming the path) — and succeeds with a model of
zero tables, not an error, when the text contains no recognizable
`CREATE TABLE` statement (no match of `table_pattern`). -/
theorem c10_missing_source_fatal_empty_ddl_ok :
    (∀ path content : String,
        parse_ddl false path content = .error ("DDL file not found: " ++ path)) ∧
    (∀ (base : String) (files : String → Option (List Row)),
        (files "table_related_information.csv" = none ∨
          files "column_related_information.csv" = none ∨
          files "join_related_information.csv" = none) →
        ∃ e, loadCSVSchema base files = .error e) ∧
    (∀ content : String,
        findAll table_pattern engineFuel content.data = some [] →
        parseTables content = some []) := by
  refine ⟨?_, ?_, ?_⟩
  · intro path content
    simp [parse_ddl]
  · intro base files h
    rcases h with h | h | h
    · exact ⟨"Error: CSV file not found at " ++ base ++ "table_related_information.csv",
        by simp only [loadCSVSchema, read_csv, h]; rfl⟩
    · cases hf : files "table_related_information.csv" with
      | none =>
        exact ⟨"Error: CSV file not found at " ++ base ++ "table_related_information.csv",
          by simp only [loadCSVSchema, read_csv, hf]; rfl⟩
      | some rows =>
        exact ⟨"Error: CSV file not found at " ++ base ++ "column_related_information.csv",
          by simp only [loadCSVSchema, read_csv, hf, h]; rfl⟩
    · cases hf : files "table_related_information.csv" with
      | none =>
        exact ⟨"Error: CSV file not found at " ++ base ++ "table_related_information.csv",
          by simp only [loadCSVSchema, read_csv, hf]; rfl⟩
      | some rows =>
        cases hg : files "column_related_information.csv" with
        | none =>
          exact ⟨"Error: CSV file not found at " ++ base ++ "column_related_information.csv",
            by simp only [loadCSVSchema, read_csv, hf, hg]; rfl⟩
        | some rows' =>
          exact ⟨"Error: CSV file not found at " ++ base ++ "join_related_information.csv",
            by simp only [loadCSVSchema, read_csv, hf, hg, h]; rfl⟩
  · intro content h
    simp only [parseTables]
    rw [h]
    rfl

/-- Witness for C10 at concrete inputs: a missing DDL file at the path
used by the repository, a file system with no CSV files, and the
match-free text `SELECT 1;`. -/
theorem c10_missing_source_fatal_empty_ddl_ok_witness :
    parse_ddl false "data/database_schema.sql" "" =
        .error "DDL file not found: data/database_schema.sql" ∧
      (∃ e, loadCSVSchema "data/" (fun _ => none) = .error e) ∧
      parseTables "SELECT 1;" = some [] := by
  refine ⟨?_, ?_, ?_⟩
  · exact c10_missing_source_fatal_empty_ddl_ok.1 "data/database_schema.sql" ""
  · exact c10_missing_source_fatal_empty_ddl_ok.2.1 "data/" (fun _ => none)
      (Or.inl rfl)
  · exact c10_missing_source_fatal_empty_ddl_ok.2.2 "SELECT 1;" rfl

/-! ## C7 and C8: the formatters -/

/-- A fold whose step only ever appends to its accumulator extends the
initial string on the right. -/
theorem foldl_extends {α : Type} (f : String → α → String)
    (hf : ∀ acc x, ∃ s, f acc x = acc ++ s) :
    ∀ (l : List α) (init : String), ∃ t, l.foldl f init = init ++ t := by
  intro l
  induction l with
  | nil => exact fun init => ⟨"", (String.append_empty init).symm⟩
  | cons x xs ih =>
    intro init
    obtain ⟨s, hs⟩ := hf init x
    obtain ⟨t, ht⟩ := ih (f init x)
    exact ⟨s ++ t, by rw [List.foldl_cons, ht, hs, String.append_assoc]⟩

/-- The relationship line of `_format_relevant_schema`
(`src/rag_context.py` lines 226-232), as appended for one relationship. -/
def relLine (rel : CsvRel) : String :=
  let line :=
    "  - " ++ rel.source_table ++ "." ++ rel.source_column ++ " -> " ++
      rel.target_table ++ "." ++ rel.target_column
  if !rel.description.isEmpty then line ++ " # " ++ rel.description else line

/-- Claim C7: for every relevant subset whose table map is empty,
`_format_relevant_schema` returns a string that starts with the header and
the explicit marker line `-- No relevant tables found for the query.` and
that is never the empty string. -/
theorem c7_format_schema_marker_on_empty (L : LoaderState) (data : CsvSearchResult)
    (h : data.tables = []) :
    (∃ rest, format_relevant_schema L data =
      "Relevant Database Schema:\n-- No relevant tables found for the query.\n" ++
        rest) ∧
    format_relevant_schema L data ≠ "" := by
  obtain ⟨tbls, rels⟩ := data
  simp only at h
  subst h
  have hdecomp : ∃ rest, format_relevant_schema L ⟨[], rels⟩ =
      "Relevant Database Schema:\n-- No relevant tables found for the query.\n" ++
        rest := by
    cases rels with
    | nil => exact ⟨"", rfl⟩
    | cons r rs =>
      obtain ⟨t, ht⟩ := foldl_extends
        (fun formatted rel =>
          let line :=
            "  - " ++ rel.source_table ++ "." ++ rel.source_column ++ " -> " ++
              rel.target_table ++ "." ++ rel.target_column
          let line :=
            if !rel.description.isEmpty then line ++ " # " ++ rel.description
            else line
          formatted ++ line ++ "\n")
        (fun acc rel => ⟨relLine rel ++ "\n",
          String.append_assoc acc (relLine rel) "\n"⟩)
        (r :: rs)
        ("Relevant Database Schema:\n-- No relevant tables found for the query.\n" ++
          "\nRelationships:\n")
      refine ⟨"\nRelationships:\n" ++ t, ?_⟩
      have h1 : format_relevant_schema L ⟨[], r :: rs⟩ =
          ("Relevant Database Schema:\n-- No relevant tables found for the query.\n" ++
            "\nRelationships:\n") ++ t := ht
      rw [h1, String.append_assoc]
  refine ⟨hdecomp, ?_⟩
  obtain ⟨rest, hrest⟩ := hdecomp
  rw [hrest]
  exact append_ne_empty_left _ _ (by decide)

/-- Witness for C7 at a concrete empty subset. -/
theorem c7_format_schema_marker_on_empty_witness :
    (∃ rest, format_relevant_schema csvABC ⟨[], []⟩ =
      "Relevant Database Schema:\n-- No relevant tables found for the query.\n" ++
        rest) ∧
    format_relevant_schema csvABC ⟨[], []⟩ ≠ "" :=
  c7_format_schema_marker_on_empty csvABC ⟨[], []⟩ rfl

/-- A rendered document block is never the empty string: every branch
prefixes a non-empty header. -/
theorem renderDoc_ne_empty {d : DocItem} {p : String}
    (h : renderDoc d = some p) : p ≠ "" := by
  cases d with
  | notDict => simp [renderDoc] at h
  | dict c m =>
    simp only [renderDoc] at h
    split at h
    · simp at h
    · split at h
      · simp only [Option.some.injEq] at h
        subst h
        apply ne_empty_of_len_pos
        simp only [String.length_append]
        have h1 : 0 < ("-- Retrieved Table Description for ").length := by decide
        omega
      · split at h
        · simp only [Option.some.injEq] at h
          subst h
          apply ne_empty_of_len_pos
          simp only [String.length_append]
          have h1 : 0 < ("-- Retrieved Column Description for ").length := by decide
          omega
        · split at h
          · simp only [Option.some.injEq] at h
            subst h
            apply ne_empty_of_len_pos
            simp only [String.length_append]
            have h1 : 0 < ("-- Retrieved Example SQL Query:\n").length := by decide
            omega
          · simp only [Option.some.injEq] at h
            subst h
            apply ne_empty_of_len_pos
            simp only [String.length_append]
            have h1 : 0 < ("-- Retrieved Context (type: ").length := by decide
            omega

/-- The parts list is empty exactly when every document is dropped. -/
theorem docParts_eq_nil_iff (docs : List DocItem) :
    docParts docs = [] ↔ ∀ d ∈ docs, renderDoc d = none := by
  induction docs with
  | nil => simp [docParts]
  | cons d ds ih =>
    rw [docParts]
    cases hr : renderDoc d with
    | none =>
      simp only []
      constructor
      · intro h x hx
        rcases List.mem_cons.mp hx with h' | h'
        · subst h'; exact hr
        · exact (ih.mp h) x h'
      · intro h
        exact ih.mpr fun x hx => h x (List.mem_cons_of_mem _ hx)
    | some q =>
      simp only []
      constructor
      · intro h; simp at h
      · intro h
        have := h d (List.mem_cons_self _ _)
        rw [hr] at this
        simp at this

/-- Every accumulated part is non-empty. -/
theorem docParts_mem_ne_empty (docs : List DocItem) :
    ∀ p ∈ docParts docs, p ≠ "" := by
  induction docs with
  | nil => simp [docParts]
  | cons d ds ih =>
    rw [docParts]
    cases hr : renderDoc d with
    | none => exact ih
    | some q =>
      intro p hp
      rcases List.mem_cons.mp hp with h | h
      · subst h; exact renderDoc_ne_empty hr
      · exact ih p h

/-- Joining non-empty parts with blank lines is non-empty. -/
theorem joinSep_ne_empty {l : List String}
    (hmem : ∀ p ∈ l, p ≠ "") (hne : l ≠ []) : joinSep "\n\n" l ≠ "" := by
  match l with
  | [] => exact absurd rfl hne
  | [x] => exact hmem x (List.mem_singleton_self x)
  | x :: y :: r =>
    show x ++ "\n\n" ++ joinSep "\n\n" (y :: r) ≠ ""
    apply append_ne_empty_left
    rw [String.length_append]
    have h1 : 0 < ("\n\n").length := by decide
    omega

/-- Claim C8: `_format_retrieved_documents` never returns the empty
string; the empty input list returns the fixed marker; when every
document is dropped (not a dict, or blank content) the second fixed
marker is returned; and a document whose metadata lacks a table name is
rendered with the `Unknown Table` placeholder, its content stripped. -/
theorem c8_format_documents_total :
    (∀ docs : List DocItem,
        format_retrieved_documents docs ≠ "" ∧
        (docs = [] →
          format_retrieved_documents docs =
            "-- No specific statements/examples retrieved.") ∧
        (docs ≠ [] → (∀ d ∈ docs, renderDoc d = none) →
          format_retrieved_documents docs =
            "-- No relevant statements/examples retrieved with usable content or structure.")) ∧
    format_retrieved_documents [.dict (some " desc ") (.dict [("type", "table")])] =
      "-- Retrieved Table Description for Unknown Table:\ndesc" := by
  refine ⟨?_, by decide⟩
  intro docs
  refine ⟨?_, ?_, ?_⟩
  · cases docs with
    | nil => decide
    | cons d ds =>
      simp only [format_retrieved_documents, List.isEmpty_cons, Bool.false_eq_true,
        if_false]
      cases hp : docParts (d :: ds) with
      | nil => decide
      | cons p ps =>
        simp only [List.isEmpty_cons, Bool.false_eq_true, if_false]
        exact joinSep_ne_empty (hp ▸ docParts_mem_ne_empty (d :: ds)) (by simp)
  · intro h
    subst h
    rfl
  · intro hne hall
    cases docs with
    | nil => exact absurd rfl hne
    | cons d ds =>
      have hnil : docParts (d :: ds) = [] := (docParts_eq_nil_iff _).mpr hall
      simp only [format_retrieved_documents, List.isEmpty_cons, Bool.false_eq_true,
        if_false, hnil]
      rfl

/-- Witness for C8 at concrete document lists: the empty list, and a list
whose documents are all dropped (a non-dict item and a dict item with
blank content). -/
theorem c8_format_documents_total_witness :
    format_retrieved_documents [] =
        "-- No specific statements/examples retrieved." ∧
      format_retrieved_documents [.notDict, .dict (some "   ") .notDict] =
        "-- No relevant statements/examples retrieved with usable content or structure." := by
  constructor
  · exact (c8_format_documents_total.1 []).2.1 rfl
  · exact (c8_format_documents_total.1 [.notDict, .dict (some "   ") .notDict]).2.2
      (by decide) (by decide)

/-! ## Lemmas about the relationship loop -/

/-- An endpoint pull succeeds when the endpoint resolves in the model. -/
theorem pullIn_ok_of_isSome {allT tbls : List (String × List Column)} {name : String}
    (h : (alistLookup allT name).isSome = true) :
    ∃ out, pullIn allT tbls name = .ok out := by
  unfold pullIn
  by_cases hh : alistHas tbls name
  · exact ⟨tbls, by rw [if_pos hh]⟩
  · rw [Option.isSome_iff_exists] at h
    obtain ⟨cols, hc⟩ := h
    exact ⟨alistInsert tbls name cols, by rw [if_neg hh, hc]⟩

/-- After a successful pull the endpoint is a key of the relevant map. -/
theorem pullIn_has_self {allT tbls out : List (String × List Column)} {name : String}
    (h : pullIn allT tbls name = .ok out) : alistHas out name = true := by
  unfold pullIn at h
  by_cases hh : alistHas tbls name
  · rw [if_pos hh] at h
    cases h
    exact hh
  · rw [if_neg hh] at h
    cases hc : alistLookup allT name with
    | none => rw [hc] at h; cases h
    | some cols =>
      rw [hc] at h
      cases h
      exact alistHas_insert_self tbls name cols

/-- A pull keeps present keys present. -/
theorem pullIn_preserves {allT tbls out : List (String × List Column)}
    {name k : String} (h : pullIn allT tbls name = .ok out)
    (hk : alistHas tbls k = true) : alistHas out k = true := by
  unfold pullIn at h
  by_cases hh : alistHas tbls name
  · rw [if_pos hh] at h
    cases h
    exact hk
  · rw [if_neg hh] at h
    cases hc : alistLookup allT name with
    | none => rw [hc] at h; cases h
    | some cols =>
      rw [hc] at h
      cases h
      exact alistHas_insert_of name cols hk

/-- Every pair after a pull was already present or comes from the model. -/
theorem pullIn_mem_sub {allT tbls out : List (String × List Column)} {name : String}
    (h : pullIn allT tbls name = .ok out) :
    ∀ p ∈ out, p ∈ tbls ∨ p ∈ allT := by
  unfold pullIn at h
  by_cases hh : alistHas tbls name
  · rw [if_pos hh] at h
    cases h
    exact fun p hp => Or.inl hp
  · rw [if_neg hh] at h
    cases hc : alistLookup allT name with
    | none => rw [hc] at h; cases h
    | some cols =>
      rw [hc] at h
      cases h
      intro p hp
      rcases alistInsert_mem tbls name cols p hp with h' | h'
      · exact Or.inl h'
      · exact Or.inr (h' ▸ alistLookup_mem hc)

/-- The relationship loop from an empty relevant map does nothing. -/
theorem relExpandGo_nil_state (allT : List (String × List Column)) :
    ∀ rels : List Relationship, relExpandGo allT rels ([], []) = .ok ([], []) := by
  intro rels
  induction rels with
  | nil => rfl
  | cons r rest ih =>
    show relExpandGo allT (r :: rest) ([], []) = .ok ([], [])
    rw [relExpandGo]
    simp only [alistHas, List.any_nil, Bool.or_self, Bool.false_eq_true, if_false]
    exact ih

/-- The relationship loop succeeds whenever every relationship endpoint
resolves in the model. -/
theorem relExpandGo_total (allT : List (String × List Column)) :
    ∀ (rels : List Relationship) (st : List (String × List Column) × List Relationship),
    (∀ r ∈ rels, (alistLookup allT r.source_table).isSome = true ∧
        (alistLookup allT r.target_table).isSome = true) →
    ∃ out, relExpandGo allT rels st = .ok out := by
  intro rels
  induction rels with
  | nil => exact fun st _ => ⟨st, rfl⟩
  | cons r rest ih =>
    intro st h
    obtain ⟨tbls, rrels⟩ := st
    obtain ⟨hs, ht⟩ := h r (List.mem_cons_self _ _)
    have hrest := fun x hx => h x (List.mem_cons_of_mem _ hx)
    rw [relExpandGo]
    split
    · split
      next e heq =>
        obtain ⟨out1, hout1⟩ := @pullIn_ok_of_isSome allT tbls r.source_table hs
        rw [hout1] at heq
        exact Except.noConfusion heq
      next out1 hout1 =>
        split
        next e heq =>
          obtain ⟨out2, hout2⟩ := @pullIn_ok_of_isSome allT out1 r.target_table ht
          rw [hout2] at heq
          exact Except.noConfusion heq
        next out2 hout2 =>
          exact ih (out2, rrels ++ [r]) hrest
    · exact ih (tbls, rrels) hrest

/-- The relationship loop only grows the key set and the relationship
list. -/
theorem relExpandGo_mono (allT : List (String × List Column)) :
    ∀ (rels : List Relationship) (st : List (String × List Column) × List Relationship)
      (out : List (String × List Column) × List Relationship),
    relExpandGo allT rels st = .ok out →
    (∀ k, alistHas st.1 k = true → alistHas out.1 k = true) ∧
    (∀ r ∈ st.2, r ∈ out.2) := by
  intro rels
  induction rels with
  | nil =>
    intro st out h
    cases h
    exact ⟨fun k hk => hk, fun r hr => hr⟩
  | cons r rest ih =>
    intro st out h
    obtain ⟨tbls, rrels⟩ := st
    rw [relExpandGo] at h
    split at h
    · split at h
      next e heq => exact Except.noConfusion h
      next out1 hout1 =>
        split at h
        next e heq => exact Except.noConfusion h
        next out2 hout2 =>
          obtain ⟨hk, hr⟩ := ih (out2, rrels ++ [r]) out h
          refine ⟨?_, ?_⟩
          · intro k hk'
            exact hk k (pullIn_preserves hout2 (pullIn_preserves hout1 hk'))
          · intro x hx
            exact hr x (List.mem_append_left _ hx)
    · exact ih (tbls, rrels) out h

/-- A relationship whose endpoint is a key of the entering relevant map is
recorded, and both of its endpoints end up as keys of the final map. -/
theorem relExpandGo_includes (allT : List (String × List Column)) :
    ∀ (rels : List Relationship) (st : List (String × List Column) × List Relationship)
      (out : List (String × List Column) × List Relationship) (rel : Relationship),
    rel ∈ rels →
    (alistHas st.1 rel.source_table = true ∨ alistHas st.1 rel.target_table = true) →
    relExpandGo allT rels st = .ok out →
    rel ∈ out.2 ∧ alistHas out.1 rel.source_table = true ∧
      alistHas out.1 rel.target_table = true := by
  intro rels
  induction rels with
  | nil => intro st out rel hmem; simp at hmem
  | cons r rest ih =>
    intro st out rel hmem hhas h
    obtain ⟨tbls, rrels⟩ := st
    rw [relExpandGo] at h
    rcases List.mem_cons.mp hmem with heq | hmem'
    · subst heq
      split at h
      · split at h
        next e heq1 => exact Except.noConfusion h
        next out1 hout1 =>
          split at h
          next e heq2 => exact Except.noConfusion h
          next out2 hout2 =>
            obtain ⟨hk, hr⟩ := relExpandGo_mono allT rest (out2, rrels ++ [rel]) out h
            refine ⟨hr rel (List.mem_append_right _ (List.mem_singleton_self rel)), ?_, ?_⟩
            · exact hk _ (pullIn_preserves hout2 (pullIn_has_self hout1))
            · exact hk _ (pullIn_has_self hout2)
      · next hcond =>
          exfalso
          rcases hhas with h' | h' <;> simp [h'] at hcond
    · split at h
      · split at h
        next e heq1 => exact Except.noConfusion h
        next out1 hout1 =>
          split at h
          next e heq2 => exact Except.noConfusion h
          next out2 hout2 =>
            refine ih (out2, rrels ++ [r]) out rel hmem' ?_ h
            rcases hhas with h' | h'
            · exact Or.inl (pullIn_preserves hout2 (pullIn_preserves hout1 h'))
            · exact Or.inr (pullIn_preserves hout2 (pullIn_preserves hout1 h'))
      · exact ih (tbls, rrels) out rel hmem' hhas h

/-- Every pair in the final relevant map was already present or comes
from the model table map. -/
theorem relExpandGo_mem_sub (allT : List (String × List Column)) :
    ∀ (rels : List Relationship) (st : List (String × List Column) × List Relationship)
      (out : List (String × List Column) × List Relationship),
    relExpandGo allT rels st = .ok out →
    ∀ p ∈ out.1, p ∈ st.1 ∨ p ∈ allT := by
  intro rels
  induction rels with
  | nil =>
    intro st out h
    cases h
    exact fun p hp => Or.inl hp
  | cons r rest ih =>
    intro st out h
    obtain ⟨tbls, rrels⟩ := st
    rw [relExpandGo] at h
    split at h
    · split at h
      next e heq => exact Except.noConfusion h
      next out1 hout1 =>
        split at h
        next e heq => exact Except.noConfusion h
        next out2 hout2 =>
          intro p hp
          rcases ih (out2, rrels ++ [r]) out h p hp with h' | h'
          · rcases pullIn_mem_sub hout2 p h' with h2 | h2
            · rcases pullIn_mem_sub hout1 p h2 with h3 | h3
              · exact Or.inl h3
              · exact Or.inr h3
            · exact Or.inr h2
          · exact Or.inr h'
    · exact ih (tbls, rrels) out h

/-! ## C5: exceptions on dangling relationship endpoints -/

/-- Claim C5 counterexample: the claim asserts the matcher never raises
and that dangling relationship endpoints are handled gracefully.  For the
model with single table B and the relationship A.id -> B.a_id whose source
table A is dangling, `search_schema` on a query matching B indexes
`self.tables["A"]` and raises a `KeyError` instead of skipping. -/
theorem c5_dangling_endpoint_raises :
    search_schema mDangling "b" = .error "KeyError: A" := rfl

/-- Claim C5 amended: `SchemaParser.search_schema` never raises for any
query when every relationship endpoint of the model resolves in the table
map; a dangling endpoint whose partner table is matched raises a
`KeyError` instead of being skipped.  (The CSV-backed matcher
`_search_csv_schema` only filters and cannot raise; its embedding
`search_csv_schema` is total by construction.) -/
theorem c5_no_raise_without_dangling (m : Model) (q : String)
    (h : ∀ rel ∈ m.relationships,
      (alistLookup m.tables rel.source_table).isSome = true ∧
        (alistLookup m.tables rel.target_table).isSome = true) :
    isOkE (search_schema m q) = true := by
  unfold search_schema searchSchemaWithTerms
  obtain ⟨out, hout⟩ := relExpandGo_total m.tables m.relationships
    (matchedPhase m (wordsOf (pyLower q)), []) h
  obtain ⟨tbls, rrels⟩ := out
  rw [hout]
  rfl

/-- Witness for C5 on the well-formed A, B, C model. -/
theorem c5_no_raise_without_dangling_witness :
    (∀ rel ∈ mABC.relationships,
      (alistLookup mABC.tables rel.source_table).isSome = true ∧
        (alistLookup mABC.tables rel.target_table).isSome = true) ∧
      isOkE (search_schema mABC "b") = true :=
  ⟨by decide, c5_no_raise_without_dangling mABC "b" (by decide)⟩

/-! ## C4: the fallback subset -/

/-- Claim C4 counterexample: the claim asserts the matcher returns a
non-empty table map for every non-empty model even when nothing matches.
`RAGContextProvider._search_csv_schema` has no fallback: on the non-empty
A, B, C loader state and the query `xyz_nonexistent_term` it returns an
empty table map. -/
theorem c4_csv_matcher_has_no_fallback :
    search_csv_schema csvABC "xyz_nonexistent_term" = ⟨[], []⟩ ∧
      csvABC.tables ≠ [] :=
  ⟨rfl, by decide⟩

/-- Claim C4 amended: `SchemaParser.search_schema` implements the
fallback: whenever direct and alias matching find nothing (so the
relationship loop finds nothing either) and the model has at least one
table, the result is exactly the first `min 3 n` tables of the model in
insertion order with all their columns and no relationships — in
particular it is non-empty.  `_search_csv_schema` has no such fallback
(counterexample). -/
theorem c4_fallback_first_tables (m : Model) (q : String)
    (hmatch : matchedPhase m (wordsOf (pyLower q)) = [])
    (hne : m.tables ≠ []) :
    search_schema m q = .ok ⟨m.tables.take 3, []⟩ ∧ m.tables.take 3 ≠ [] := by
  constructor
  · unfold search_schema searchSchemaWithTerms
    rw [hmatch, relExpandGo_nil_state]
    cases htab : m.tables with
    | nil => exact absurd htab hne
    | cons t ts => simp
  · cases htab : m.tables with
    | nil => exact absurd htab hne
    | cons t ts => simp [htab]

/-- Witness for C4: the A, B, C model and a query that matches nothing. -/
theorem c4_fallback_first_tables_witness :
    search_schema mABC "xyz_nonexistent_term" = .ok ⟨mABC.tables.take 3, []⟩ ∧
      mABC.tables.take 3 ≠ [] :=
  c4_fallback_first_tables mABC "xyz_nonexistent_term" rfl (by decide)

/-! ## C3: the one-hop closure -/

/-- Inversion of a successful `search_schema` run: the relationship loop
succeeded and the result applies the fallback rule to its table map. -/
theorem search_schema_ok_inv (m : Model) (q : String) (res : SearchResult)
    (h : search_schema m q = .ok res) :
    ∃ tbls rrels,
      relExpandGo m.tables m.relationships
        (matchedPhase m (wordsOf (pyLower q)), []) = .ok (tbls, rrels) ∧
      res = ⟨if tbls.isEmpty && !m.tables.isEmpty then m.tables.take 3 else tbls,
        rrels⟩ := by
  unfold search_schema searchSchemaWithTerms at h
  cases hexp : relExpandGo m.tables m.relationships
      (matchedPhase m (wordsOf (pyLower q)), []) with
  | error e => rw [hexp] at h; exact Except.noConfusion h
  | ok out =>
    obtain ⟨tbls, rrels⟩ := out
    rw [hexp] at h
    have h2 : Except.ok (ε := String)
        (⟨if tbls.isEmpty && !m.tables.isEmpty then m.tables.take 3 else tbls,
          rrels⟩ : SearchResult) = .ok res := h
    injection h2 with h3
    exact ⟨tbls, rrels, rfl, h3.symm⟩

/-- The result of the A, B, C one-hop scenario. -/
def resABC : SearchResult :=
  ⟨[("B", [⟨"id", "INT"⟩, ⟨"a_id", "INT"⟩]),
    ("A", [⟨"id", "INT"⟩, ⟨"x", "TEXT"⟩]),
    ("C", [⟨"id", "INT"⟩, ⟨"b_id", "INT"⟩])], relsABC⟩

/-- Claim C3 counterexample: the claim asserts that the matcher performs
the one-hop closure, and in particular that with tables A, B, C and
relationships A.id -> B.a_id, B.id -> C.b_id a query lexically matching
only B yields A, B, C and both relationships.
`RAGContextProvider._search_csv_schema` does not: on the A, B, C loader
state it returns only table B and no relationships — it keeps a join only
when both endpoints are already matched and never pulls in tables. -/
theorem c3_csv_matcher_no_closure :
    search_csv_schema csvABC "show B stuff" =
      ⟨[("B", [⟨"id", "INT", ""⟩, ⟨"a_id", "INT", ""⟩])], []⟩ := rfl

/-- Claim C3 amended: `SchemaParser.search_schema` performs the one-hop
closure over the table set produced by direct and alias matching: every
relationship of the model with an endpoint in that set is included in the
result, and both of its endpoint tables are keys of the returned table
map; on the A, B, C model a query matching only B returns A, B, C with
all their columns and both relationships.  `_search_csv_schema` performs
no closure (counterexample). -/
theorem c3_one_hop_closure :
    (∀ (m : Model) (q : String) (rel : Relationship) (res : SearchResult),
        rel ∈ m.relationships →
        (alistHas (matchedPhase m (wordsOf (pyLower q))) rel.source_table = true ∨
          alistHas (matchedPhase m (wordsOf (pyLower q))) rel.target_table = true) →
        search_schema m q = .ok res →
        rel ∈ res.relationships ∧ alistHas res.tables rel.source_table = true ∧
          alistHas res.tables rel.target_table = true) ∧
    search_schema mABC "show B stuff" = .ok resABC := by
  constructor
  · intro m q rel res hmem hhas hok
    obtain ⟨tbls, rrels, hexp, hres⟩ := search_schema_ok_inv m q res hok
    obtain ⟨hin, hsrc, htgt⟩ := relExpandGo_includes m.tables m.relationships
      (matchedPhase m (wordsOf (pyLower q)), []) (tbls, rrels) rel hmem hhas hexp
    have htne : tbls.isEmpty = false := by
      cases tbls with
      | nil => simp [alistHas] at hsrc
      | cons p ps => rfl
    rw [hres]
    simp only [htne, Bool.false_and, Bool.false_eq_true, if_false]
    exact ⟨hin, hsrc, htgt⟩
  · rfl

/-- Witness for C3: the relationship A.id -> B.a_id of the A, B, C model
whose target B is matched by the query. -/
theorem c3_one_hop_closure_witness :
    (⟨"A", "id", "B", "a_id"⟩ : Relationship) ∈ resABC.relationships ∧
      alistHas resABC.tables "A" = true ∧ alistHas resABC.tables "B" = true :=
  c3_one_hop_closure.1 mABC "show B stuff" ⟨"A", "id", "B", "a_id"⟩ resABC
    (by decide) (Or.inr (by decide)) c3_one_hop_closure.2

/-! ## C6: case-insensitive matching and canonical casing -/

/-- A result table entry is drawn from the model: its key is a stored
table name and each of its columns is one of the stored columns of that
table, both with their original casing. -/
def fromModel (tables : List (String × List Column)) (p : String × List Column) :
    Prop :=
  ∃ e ∈ tables, p.1 = e.1 ∧ ∀ c ∈ p.2, c ∈ e.2

/-- A CSV result table entry is drawn from the loader: its key is a
stored table name and each of its columns copies a stored column record
verbatim. -/
def fromLoader (L : LoaderState) (p : String × List CsvCol) : Prop :=
  (∃ t ∈ L.tables, p.1 = t.name) ∧
  ∀ c ∈ p.2, ∃ ci ∈ L.columns, c.name = ci.column_name ∧
    c.type = ci.data_type ∧ c.description = ci.description

/-- Every entry produced by the direct phase is drawn from the model. -/
theorem directPhase_sub (tables : List (String × List Column)) (terms : List String) :
    ∀ p ∈ directPhase tables terms, fromModel tables p := by
  unfold directPhase
  refine List.foldlRecOn (motive := fun x => ∀ p ∈ x, fromModel tables p)
    tables _ [] (fun p hp => absurd hp (List.not_mem_nil p)) ?_
  intro acc hacc a ha
  obtain ⟨tn, cols⟩ := a
  intro p hp
  simp only at hp
  split at hp
  · rcases alistInsert_mem acc tn cols p hp with h1 | h1
    · exact hacc p h1
    · subst h1
      exact ⟨(tn, cols), ha, rfl, fun c hc => hc⟩
  · split at hp
    · rcases alistInsert_mem acc tn _ p hp with h1 | h1
      · exact hacc p h1
      · subst h1
        refine ⟨(tn, cols), ha, rfl, fun c hc => ?_⟩
        exact (List.mem_filter.mp hc).1
    · exact hacc p hp

/-- Every entry produced by the semantic alias phase is drawn from the
model. -/
theorem semanticPhase_sub (tables : List (String × List Column)) (terms : List String) :
    ∀ p ∈ semanticPhase tables terms, fromModel tables p := by
  unfold semanticPhase
  refine List.foldlRecOn (motive := fun x => ∀ p ∈ x, fromModel tables p)
    terms _ [] (fun p hp => absurd hp (List.not_mem_nil p)) ?_
  intro acc hacc term hterm
  refine List.foldlRecOn (motive := fun x => ∀ p ∈ x, fromModel tables p)
    semantic_matches _ acc hacc ?_
  intro acc2 hacc2 kv hkv
  simp only
  split
  · refine List.foldlRecOn (motive := fun x => ∀ p ∈ x, fromModel tables p)
      tables _ acc2 hacc2 ?_
    intro acc3 hacc3 a ha
    intro p hp
    simp only at hp
    split at hp
    · rcases alistInsert_mem acc3 a.1 a.2 p hp with h1 | h1
      · exact hacc3 p h1
      · subst h1
        exact ⟨a, ha, rfl, fun c hc => hc⟩
    · exact hacc3 p hp
  · exact hacc2

/-- Every entry of the matched phase is drawn from the model. -/
theorem matchedPhase_sub (m : Model) (terms : List String) :
    ∀ p ∈ matchedPhase m terms, fromModel m.tables p := by
  intro p hp
  simp only [matchedPhase] at hp
  split at hp
  · exact semanticPhase_sub m.tables terms p hp
  · exact directPhase_sub m.tables terms p hp

/-- Every table entry of a successful `search_schema` result is drawn
from the model: matching never rewrites the stored casing. -/
theorem search_schema_tables_from_model (m : Model) (q : String)
    (res : SearchResult) (hok : search_schema m q = .ok res) :
    ∀ p ∈ res.tables, fromModel m.tables p := by
  obtain ⟨tbls, rrels, hexp, hres⟩ := search_schema_ok_inv m q res hok
  subst hres
  intro p hp
  simp only at hp
  split at hp
  · exact ⟨p, List.mem_of_mem_take hp, rfl, fun c hc => hc⟩
  · rcases relExpandGo_mem_sub m.tables m.relationships _ _ hexp p hp with h1 | h1
    · exact matchedPhase_sub m (wordsOf (pyLower q)) p h1
    · exact ⟨p, h1, rfl, fun c hc => hc⟩

/-- The guarded insertion keeps the loader invariant. -/
theorem csvEnsureTable_sub (L : LoaderState) (ti : TableInfo) (hti : ti ∈ L.tables)
    (st : List (String × List CsvCol) × List String)
    (hst : ∀ p ∈ st.1, fromLoader L p) :
    ∀ p ∈ (csvEnsureTable ti st).1, fromLoader L p := by
  unfold csvEnsureTable
  split
  · intro p hp
    rcases List.mem_append.mp hp with h1 | h1
    · exact hst p h1
    · rw [List.mem_singleton] at h1
      subst h1
      exact ⟨⟨ti, hti, rfl⟩, fun c hc => absurd hc (List.not_mem_nil c)⟩
  · exact hst

/-- The column append keeps the loader invariant. -/
theorem csvAppendCol_sub (L : LoaderState) (ti : TableInfo) (ci : ColumnInfo)
    (hti : ti ∈ L.tables) (hci : ci ∈ L.columns)
    (st : List (String × List CsvCol) × List String)
    (hst : ∀ p ∈ st.1, fromLoader L p) :
    ∀ p ∈ (csvAppendCol ti ci st).1, fromLoader L p := by
  have hst2 := csvEnsureTable_sub L ti hti st hst
  intro p hp
  simp only [csvAppendCol] at hp
  split at hp
  · rcases alistInsert_mem (csvEnsureTable ti st).1 ti.name _ p hp with h1 | h1
    · exact hst2 p h1
    · subst h1
      refine ⟨⟨ti, hti, rfl⟩, fun c hc => ?_⟩
      rcases List.mem_append.mp hc with h2 | h2
      · cases hlk : alistLookup (csvEnsureTable ti st).1 ti.name with
        | none => rw [hlk] at h2; exact absurd h2 (List.not_mem_nil c)
        | some ent =>
          rw [hlk] at h2
          exact (hst2 (ti.name, ent) (alistLookup_mem hlk)).2 c h2
      · rw [List.mem_singleton] at h2
        subst h2
        exact ⟨ci, hci, rfl, rfl, rfl⟩
  · exact hst2 p hp

/-- The per-table loop body keeps the loader invariant. -/
theorem csvTableStep_sub (L : LoaderState) (query_terms : List String)
    (ti : TableInfo) (hti : ti ∈ L.tables)
    (st : List (String × List CsvCol) × List String)
    (hst : ∀ p ∈ st.1, fromLoader L p) :
    ∀ p ∈ (csvTableStep L query_terms st ti).1, fromLoader L p := by
  have hst1 : ∀ p ∈ (if pyLower ti.name ∈ query_terms then csvEnsureTable ti st
      else st).1, fromLoader L p := by
    split
    · exact csvEnsureTable_sub L ti hti st hst
    · exact hst
  have main : ∀ l : List ColumnInfo, (∀ x ∈ l, x ∈ L.columns) →
      ∀ st2 : List (String × List CsvCol) × List String,
      (∀ p ∈ st2.1, fromLoader L p) →
      ∀ p ∈ (l.foldl
        (fun st col_info =>
          if pyLower col_info.column_name ∈ query_terms ||
              pyLower ti.name ∈ query_terms then
            csvAppendCol ti col_info st
          else st) st2).1, fromLoader L p := by
    intro l
    induction l with
    | nil => exact fun _ st2 h2 => h2
    | cons c cs ih =>
      intro hmem st2 h2
      rw [List.foldl_cons]
      refine ih (fun x hx => hmem x (List.mem_cons_of_mem _ hx)) _ ?_
      split
      · exact csvAppendCol_sub L ti c hti (hmem c (List.mem_cons_self _ _)) st2 h2
      · exact h2
  intro p hp
  exact main (getColumnsForTable L ti.name)
    (fun x hx => (List.mem_filter.mp hx).1) _ hst1 p hp

/-- Every table entry of a CSV-matcher result is drawn verbatim from the
loader state. -/
theorem csv_tables_from_loader (L : LoaderState) (query_terms : List String) :
    ∀ p ∈ (searchCsvSchemaWithTerms L query_terms).tables, fromLoader L p := by
  have main : ∀ l : List TableInfo, (∀ x ∈ l, x ∈ L.tables) →
      ∀ st : List (String × List CsvCol) × List String,
      (∀ p ∈ st.1, fromLoader L p) →
      ∀ p ∈ (l.foldl (csvTableStep L query_terms) st).1, fromLoader L p := by
    intro l
    induction l with
    | nil => exact fun _ st h => h
    | cons t ts ih =>
      intro hmem st h
      rw [List.foldl_cons]
      exact ih (fun x hx => hmem x (List.mem_cons_of_mem _ hx)) _
        (csvTableStep_sub L query_terms t (hmem t (List.mem_cons_self _ _)) st h)
  intro p hp
  exact main L.tables (fun x hx => hx) ([], [])
    (fun x hx => absurd hx (List.not_mem_nil x)) p hp

/-- Claim C6: for every model and loader state and every pair of queries
that agree after lower casing, both matchers return identical results
(matching is case-insensitive), and every table name and column in any
returned structure is drawn verbatim from the model — matching never
lowercases the names it returns. -/
theorem c6_case_insensitive_canonical (m : Model) (L : LoaderState)
    (q q' : String) (h : pyLower q = pyLower q') :
    search_schema m q = search_schema m q' ∧
    search_csv_schema L q = search_csv_schema L q' ∧
    (∀ res : SearchResult, search_schema m q = .ok res →
      ∀ p ∈ res.tables, ∃ e ∈ m.tables, p.1 = e.1 ∧ ∀ c ∈ p.2, c ∈ e.2) ∧
    (∀ p ∈ (search_csv_schema L q).tables,
      (∃ t ∈ L.tables, p.1 = t.name) ∧
      ∀ c ∈ p.2, ∃ ci ∈ L.columns, c.name = ci.column_name ∧
        c.type = ci.data_type ∧ c.description = ci.description) := by
  refine ⟨?_, ?_, ?_, ?_⟩
  · unfold search_schema
    rw [h]
  · unfold search_csv_schema
    rw [show (wordsOf q).map pyLower = (wordsOf q').map pyLower by
      rw [← wordsOf_lower, ← wordsOf_lower, h]]
  · exact fun res hok => search_schema_tables_from_model m q res hok
  · exact csv_tables_from_loader L ((wordsOf q).map pyLower)

/-- Witness for C6: the queries of the specification scenario P3 against
a model and loader with a table named Users and the A, B, C loader. -/
theorem c6_case_insensitive_canonical_witness :
    search_schema mUsers "SHOW ALL USERS" = search_schema mUsers "show all users" ∧
      search_csv_schema csvABC "SHOW ALL USERS" =
        search_csv_schema csvABC "show all users" :=
  ⟨(c6_case_insensitive_canonical mUsers csvABC "SHOW ALL USERS" "show all users"
      rfl).1,
   (c6_case_insensitive_canonical mUsers csvABC "SHOW ALL USERS" "show all users"
      rfl).2.1⟩
